import Mathlib

namespace AuditKit

/-!
Shallow embedding of the audit-kit Go library (github.com/soulteary/audit-kit):
record/filter data model, the file, relational and Redis storage backends,
the fan-out storage, the asynchronous writer, and the logger facade.
Definitions are translated from the Go sources; theorems check the
specification's claims against them.

Conventions of the embedding:
* Go `int`/`int64` fields become `Int` (no field in the verified operations
  can overflow 64 bits on the inputs considered, and Go semantics on these
  code paths never rely on wrap-around).
* Byte strings that the code only ever parses, measures or compares are
  abstracted to the information the code extracts from them (e.g. a stored
  file line is "parses to record r and has n bytes").
* Effects (channel sends, SQL execution, file-system calls) are made explicit
  as return values or state so that panics and executed statements are
  observable.
-/

/-- Outcome of an audit event (types.go `Result`). -/
inductive Result where
  | success
  | failure
  | pending
  deriving DecidableEq, Repr

/-- An audit log entry (types.go `Record`).  `EventType` is an open string
enum in Go; it stays a string here.  The open-ended `Metadata` map only
flows through the code opaquely in the verified operations, so it is
modelled as an association list of string pairs. -/
structure Record where
  eventType : String := ""
  eventID : String := ""
  userID : String := ""
  challengeID : String := ""
  sessionID : String := ""
  channel : String := ""
  destination : String := ""
  purpose : String := ""
  resource : String := ""
  result : Result := .success
  reason : String := ""
  provider : String := ""
  providerMessageID : String := ""
  ip : String := ""
  userAgent : String := ""
  requestID : String := ""
  traceID : String := ""
  timestamp : Int := 0
  durationMS : Int := 0
  metadata : List (String × String) := []
  deriving DecidableEq, Repr

/-- Filter criteria for querying audit records (storage.go `QueryFilter`). -/
structure QueryFilter where
  eventType : String := ""
  userID : String := ""
  challengeID : String := ""
  sessionID : String := ""
  channel : String := ""
  result : String := ""
  startTime : Int := 0
  endTime : Int := 0
  ip : String := ""
  limit : Int := 0
  offset : Int := 0
  deriving DecidableEq, Repr

/-- storage.go `DefaultQueryFilter`. -/
def defaultQueryFilter : QueryFilter := { limit := 100 }

/-- storage.go `QueryFilter.Normalize`.  The Go method mutates the filter in
place; here it returns the updated filter. -/
def QueryFilter.normalize (f : QueryFilter) : QueryFilter :=
  let f := if f.limit ≤ 0 then { f with limit := 100 } else f
  let f := if f.limit > 1000 then { f with limit := 1000 } else f
  if f.offset < 0 then { f with offset := 0 } else f

/-- Go string rendering of a `Result` (used where the code compares
`string(record.Result)` with `filter.Result`). -/
def Result.toGoString : Result → String
  | .success => "success"
  | .failure => "failure"
  | .pending => "pending"

/-- file.go `matchesFilter` (also used by the Redis backend). -/
def matchesFilter (record : Record) (filter : QueryFilter) : Bool :=
  if filter.eventType ≠ "" ∧ record.eventType ≠ filter.eventType then false
  else if filter.userID ≠ "" ∧ record.userID ≠ filter.userID then false
  else if filter.challengeID ≠ "" ∧ record.challengeID ≠ filter.challengeID then false
  else if filter.sessionID ≠ "" ∧ record.sessionID ≠ filter.sessionID then false
  else if filter.channel ≠ "" ∧ record.channel ≠ filter.channel then false
  else if filter.result ≠ "" ∧ record.result.toGoString ≠ filter.result then false
  else if filter.ip ≠ "" ∧ record.ip ≠ filter.ip then false
  else if filter.startTime > 0 ∧ record.timestamp < filter.startTime then false
  else if filter.endTime > 0 ∧ record.timestamp > filter.endTime then false
  else true

/-! ## Asynchronous writer (writer.go)

The writer owns a buffered Go channel.  Only the operational facts the
verified claims depend on are modelled, but with Go's actual channel
semantics: a non-blocking send (`select` with a `default` branch) succeeds
when the channel is open and has buffer space, takes the `default` branch
when the channel is open but full, and panics when the channel is closed —
in a `select`, a send on a closed channel counts as ready and panics when
chosen.  Worker goroutines and wall-clock timeouts are outside the
embedding; `stop` records their net effect on the observable writer state. -/

/-- A buffered Go channel holding values of type α. -/
structure GoChan (α : Type) where
  buf : List α
  capacity : Nat
  closed : Bool
  deriving DecidableEq, Repr

/-- What a non-blocking send (select with default) does. -/
inductive EnqueueOutcome where
  /-- The send case fired: the record is in the buffer, `Enqueue` returns true. -/
  | accepted
  /-- The default case fired (queue full): `Enqueue` returns false. -/
  | droppedFull
  /-- The channel was closed: the send case fires and panics. -/
  | panicked
  deriving DecidableEq, Repr

/-- The writer state (writer.go `Writer`).  The storage backend is abstracted
to the facts `Stop` observes about it: whether one is configured, what its
`Close` returns, and how many times `Close` has been called. -/
structure Writer where
  queue : GoChan Record
  workers : Nat
  started : Bool := false
  stopped : Bool := false
  storagePresent : Bool := true
  /-- Result the backend's `Close` returns when called. -/
  storageCloseErr : Option String := none
  /-- Number of times the backend's `Close` has been called. -/
  storageCloseCount : Nat := 0
  deriving DecidableEq, Repr

/-- writer.go `NewWriter` (storage abstracted as above; nil config and
non-positive fields fall back to the defaults). -/
def newWriter (storagePresent : Bool) (storageCloseErr : Option String)
    (queueSize workers : Int) : Writer :=
  let queueSize := if queueSize ≤ 0 then 1000 else queueSize
  let workers := if workers ≤ 0 then 2 else workers
  { queue := { buf := [], capacity := queueSize.toNat, closed := false }
    workers := workers.toNat
    storagePresent := storagePresent
    storageCloseErr := storageCloseErr }

/-- writer.go `Writer.Start`: spawning the worker goroutines has no effect on
the state observed by the verified claims beyond the `started` flag. -/
def Writer.start (w : Writer) : Writer :=
  if w.started then w else { w with started := true }

/-- writer.go `Writer.Enqueue`: `select { case w.queue <- record: ...
default: ... }`.  Returns the new state and the outcome. -/
def Writer.enqueue (w : Writer) (r : Record) : Writer × EnqueueOutcome :=
  if w.queue.closed then
    (w, .panicked)
  else if w.queue.buf.length < w.queue.capacity then
    ({ w with queue := { w.queue with buf := w.queue.buf ++ [r] } }, .accepted)
  else
    (w, .droppedFull)

/-- writer.go `Writer.Stop`.  When the writer is started and not yet stopped
it: sets `stopped`, cancels the workers, closes the queue, waits for the
workers (they drain the queue; on timeout remaining records may be lost —
either way the channel ends up closed, which is all later `Enqueue` calls
observe), then closes the backend and returns that result; otherwise it is a
no-op returning no error. -/
def Writer.stop (w : Writer) : Writer × Option String :=
  if ¬ w.started ∨ w.stopped then
    (w, none)
  else
    let w := { w with
      stopped := true
      queue := { w.queue with closed := true } }
    if w.storagePresent then
      ({ w with storageCloseCount := w.storageCloseCount + 1 }, w.storageCloseErr)
    else
      (w, none)

/-- writer.go `Stats` / `Writer.GetStats`. -/
structure Stats where
  queueLength : Nat
  queueCap : Nat
  workers : Nat
  started : Bool
  stopped : Bool
  deriving DecidableEq, Repr

/-- writer.go `Writer.GetStats`. -/
def Writer.getStats (w : Writer) : Stats :=
  { queueLength := if w.stopped then 0 else w.queue.buf.length
    queueCap := w.queue.capacity
    workers := w.workers
    started := w.started
    stopped := w.stopped }

/-- A started-then-stopped writer used to exhibit the Enqueue-after-Stop
panic (the configuration of `TestWriter_EnqueueAfterStop`). -/
def c1Writer : Writer :=
  ((newWriter true none 10 1).start.stop).1

/-- A started writer whose backend's `Close` fails (like the tests'
`errorStorage`, or a `FileStorage` whose file close fails). -/
def c7Writer : Writer := (newWriter true (some "close error") 10 1).start

/-! ## File backend (file.go)

The stored file is a list of lines.  The code only ever measures a line's
byte length, skips it when empty, and JSON-decodes it, so a line is
abstracted to exactly that information: it is either empty, or malformed of
some byte length, or the encoding of a record with some byte length.
`bufio.Scanner` semantics: the `Query` scan loop is given a maximum token
size of `MaxRecordJSONSize`; on a longer line, `Scan` returns false with
`bufio.ErrTooLong` set, and `Query` then returns that error — the in-loop
oversize check in the source is unreachable. -/

/-- Modelled from the spec: the constant `MaxRecordJSONSize` is referenced by
`FileStorage.Query` and the tests but its defining declaration is absent
from the sources; the spec fixes the per-line size ceiling default at
1 MiB. -/
def MaxRecordJSONSize : Nat := 1048576

/-- One line of the stored audit file, abstracted as described above. -/
inductive FileLine where
  /-- A line of `len` bytes that JSON-decodes to record `r`. -/
  | parsed (r : Record) (len : Nat)
  /-- A non-empty line of `len` bytes that fails to JSON-decode. -/
  | malformed (len : Nat)
  /-- An empty line. -/
  | empty
  deriving DecidableEq, Repr

/-- Byte length of a line. -/
def FileLine.len : FileLine → Nat
  | .parsed _ n => n
  | .malformed n => n
  | .empty => 0

/-- Whether a line decodes to a record. -/
def FileLine.isParsed : FileLine → Bool
  | .parsed _ _ => true
  | _ => false

/-- The scan loop of file.go `FileStorage.Query` (lines 109—141): read lines
in order, skipping empty and malformed ones; a line above the scanner's
maximum token size makes `scanner.Scan` fail and `Query` returns the
scanner error. -/
def scanRecords : List FileLine → Except String (List Record)
  | [] => .ok []
  | line :: rest =>
    if line.len > MaxRecordJSONSize then
      .error "failed to read file: bufio.Scanner: token too long"
    else
      match line with
      | .empty => scanRecords rest
      | .malformed _ => scanRecords rest
      | .parsed r _ => (scanRecords rest).map (r :: ·)

/-- The filter/paginate loop of file.go `FileStorage.Query` (lines 143—165):
walk the already-reversed record list, skip non-matches, skip `offset`
matches, then collect until `limit` results are gathered. -/
def fileCollect (f : QueryFilter) : List Record → Int → List Record → List Record
  | [], _, results => results
  | r :: rest, offset, results =>
    if ¬ matchesFilter r f then
      fileCollect f rest offset results
    else if offset < f.offset then
      fileCollect f rest (offset + 1) results
    else
      let results := results ++ [r]
      if (results.length : Int) ≥ f.limit then results
      else fileCollect f rest offset results

/-- file.go `FileStorage.Query` over the stored lines: nil filter defaults,
normalize, scan all records, then filter newest-first by reversing the read
order. -/
def fileStorageQuery (lines : List FileLine) (filter : Option QueryFilter) :
    Except String (List Record) :=
  let f := (filter.getD defaultQueryFilter).normalize
  match scanRecords lines with
  | .error e => .error e
  | .ok allRecords => .ok (fileCollect f allRecords.reverse 0 [])

/-- file.go `FileStorage.Write` appends one encoded line (the record together
with its encoded byte length, which the embedding keeps abstract). -/
def fileLinesOf (ps : List (Record × Nat)) : List FileLine :=
  ps.map fun p => .parsed p.1 p.2

/-! ### C4: construction (file.go `NewFileStorage`) -/

/-- The facts about the file system that `NewFileStorage` could observe. -/
structure FileSystemView where
  pathIsSymlink : Bool
  mkdirFails : Bool
  openFails : Bool
  deriving DecidableEq, Repr

/-- Effect trace of a `NewFileStorage` call: its result, the permission bits
passed to `os.MkdirAll` and `os.OpenFile` (if reached), and whether the code
inspected the path for being a symbolic link at all. -/
structure FileOpenTrace where
  ok : Bool
  errMsg : String := ""
  dirPerm : Option Nat := none
  filePerm : Option Nat := none
  symlinkChecked : Bool := false
  deriving DecidableEq, Repr

/-- file.go `NewFileStorage`: `os.MkdirAll(dir, 0755)` then
`os.OpenFile(filePath, os.O_APPEND|os.O_CREATE|os.O_WRONLY, 0644)`.  No
code path consults whether the path is a symbolic link. -/
def newFileStorage (fs : FileSystemView) : FileOpenTrace :=
  if fs.mkdirFails then
    { ok := false, errMsg := "failed to create directory", dirPerm := some 0o755 }
  else if fs.openFails then
    { ok := false, errMsg := "failed to open file", dirPerm := some 0o755,
      filePerm := some 0o644 }
  else
    { ok := true, dirPerm := some 0o755, filePerm := some 0o644 }

/-! ### C5: skipping behaviour of the file `Query` -/

/-- The record a line decodes to, if any. -/
def FileLine.decoded : FileLine → Option Record
  | .parsed r _ => some r
  | _ => none

/-- A healthy record line followed by a line one byte over the ceiling. -/
def c5Lines : List FileLine :=
  [.parsed { eventType := "login_success", timestamp := 1 } 64,
   .malformed (MaxRecordJSONSize + 1)]

/-! ## Redis backend (redis.go)

Keys are strings `prefix + itoa(timestamp)` or
`prefix + itoa(timestamp) + ":" + id` in Go.  Under a fixed prefix, the
decimal timestamp part contains no colon, so the string is determined by —
and determines — the (timestamp, id) data; keys are therefore modelled
structurally.  Value expiry and client I/O errors are wall-clock/network
behaviour outside the embedding: `Get` on a key the index points to
succeeds.  `sort.Slice` and `ZREVRANGEBYSCORE` deliver any ordering
consistent with their comparator; the model uses insertion sort (tie order
between equal scores is not relied on by any theorem). -/

/-- A record key (`redis.go Write`, lines 62—72). -/
inductive RKey where
  | withId (ts : Int) (id : String)
  | tsOnly (ts : Int)
  deriving DecidableEq, Repr

/-- The timestamp baked into a key. -/
def RKey.ts : RKey → Int
  | .withId t _ => t
  | .tsOnly t => t

/-- redis.go `Write` key derivation: event id, then challenge id, then user
id, then timestamp alone. -/
def recordKey (r : Record) : RKey :=
  if r.eventID ≠ "" then .withId r.timestamp r.eventID
  else if r.challengeID ≠ "" then .withId r.timestamp r.challengeID
  else if r.userID ≠ "" then .withId r.timestamp r.userID
  else .tsOnly r.timestamp

/-- The Redis database as seen by this storage: the record keys with their
values, and the sorted-set index (member, score).  `SET` overwrites an
existing key; `ZADD` updates the score of an existing member. -/
structure RedisState where
  store : List (RKey × Record) := []
  index : List (RKey × Int) := []
  deriving DecidableEq, Repr

/-- `SET key value`: overwrite in place or append. -/
def setKV : List (RKey × Record) → RKey → Record → List (RKey × Record)
  | [], k, v => [(k, v)]
  | (k1, v1) :: rest, k, v =>
    if k1 = k then (k, v) :: rest else (k1, v1) :: setKV rest k v

/-- `GET key`. -/
def getKV : List (RKey × Record) → RKey → Option Record
  | [], _ => none
  | (k1, v1) :: rest, k => if k1 = k then some v1 else getKV rest k

/-- `ZADD index (member, score)`: update the member's score or add it. -/
def zadd : List (RKey × Int) → RKey → Int → List (RKey × Int)
  | [], k, s => [(k, s)]
  | (k1, s1) :: rest, k, s =>
    if k1 = k then (k, s) :: rest else (k1, s1) :: zadd rest k s

/-- redis.go `RedisStorage.Write`: store the record under its derived key
and add the key to the sorted index scored by timestamp (both with the
configured TTL, which is outside the embedding). -/
def redisWrite (s : RedisState) (r : Record) : RedisState :=
  { store := setKV s.store (recordKey r) r
    index := zadd s.index (recordKey r) r.timestamp }

/-- A sequence of `Write` calls. -/
def redisWriteAll (s : RedisState) (rs : List Record) : RedisState :=
  rs.foldl redisWrite s

/-- Index entries ordered by descending score (the order
`ZREVRANGEBYSCORE` delivers; tie order not relied on). -/
def scoreGE : RKey × Int → RKey × Int → Prop := fun a b => b.2 ≤ a.2

instance : DecidableRel scoreGE := fun a b =>
  inferInstanceAs (Decidable (b.2 ≤ a.2))

instance : IsTotal (RKey × Int) scoreGE := ⟨fun a b => le_total b.2 a.2⟩

instance : IsTrans (RKey × Int) scoreGE :=
  ⟨fun _ _ _ hab hbc => le_trans hbc hab⟩

/-- `ZREVRANGEBYSCORE index max min LIMIT offset count`: the members whose
score lies in the (possibly unbounded) range, in descending score order,
sliced by offset/count. -/
def zRevRangeByScore (index : List (RKey × Int)) (minB maxB : Option Int)
    (offset count : Nat) : List RKey :=
  let inRange := index.filter fun e =>
    (minB.all fun m => decide (m ≤ e.2)) && (maxB.all fun M => decide (e.2 ≤ M))
  (((inRange.insertionSort scoreGE).drop offset).take count).map Prod.fst

/-- Records ordered by descending timestamp (redis.go `Query`'s
`sort.Slice` comparator). -/
def tsGE : Record → Record → Prop := fun a b => b.timestamp ≤ a.timestamp

instance : DecidableRel tsGE := fun a b =>
  inferInstanceAs (Decidable (b.timestamp ≤ a.timestamp))

instance : IsTotal Record tsGE := ⟨fun a b => le_total b.timestamp a.timestamp⟩

instance : IsTrans Record tsGE := ⟨fun _ _ _ hab hbc => le_trans hbc hab⟩

/-- The fetch loop of redis.go `Query` (lines 135—159): `GET` each candidate
key — a key whose value expired is dropped from the index and skipped, which
the pure model never hits — and keep the records passing the client-side
filters. -/
def redisFetch (store : List (RKey × Record)) (f : QueryFilter)
    (keys : List RKey) : List Record :=
  keys.filterMap fun k =>
    match getKV store k with
    | none => none
    | some r => if matchesFilter r f then some r else none

/-- The pagination step of redis.go `Query` (lines 166—177):
`records[start:end]` with `start = offset`, `end = min(start+limit, len)`. -/
def paginate (f : QueryFilter) (records : List Record) : List Record :=
  let start := f.offset.toNat
  if records.length ≤ start then []
  else (records.drop start).take f.limit.toNat

/-- redis.go `RedisStorage.Query`: normalize the filter, range-scan the
index newest-first with an over-read of `limit+offset+100`, fetch each key,
apply the remaining filters client-side, re-sort by timestamp descending,
then slice `[offset : offset+limit]`. -/
def redisQuery (s : RedisState) (filter : Option QueryFilter) : List Record :=
  let f := (filter.getD defaultQueryFilter).normalize
  let minB := if f.startTime > 0 then some f.startTime else none
  let maxB := if f.endTime > 0 then some f.endTime else none
  let keys := zRevRangeByScore s.index minB maxB 0 (f.limit + f.offset + 100).toNat
  paginate f ((redisFetch s.store f keys).insertionSort tsGE)

/-- First record of the same-second collision pair: no event, challenge or
user id, timestamp 1000 (the configuration of
`TestRedisStorage_Write_SameSecondNoID`). -/
def c3r1 : Record := { eventType := "login_success", result := .success, timestamp := 1000 }

/-- Second record of the collision pair: same timestamp, no ids. -/
def c3r2 : Record := { eventType := "login_failed", result := .failure, timestamp := 1000 }

/-! ## Relational backend (database.go)

The construction path is modelled up to the SQL statements it executes:
`NewDatabaseStorageFromDB` checks the database type tag, then `createTable`
renders the dialect's DDL template with the configured table name spliced in
by `fmt.Sprintf`, splits it on `;`, and executes each non-empty trimmed
statement.  The model returns the list of executed statements (the driver
accepts them — what matters for the claims is what reaches the driver).
Indentation inside the templates is normalized to single spaces; statement
boundaries (`;`) and all tokens are kept verbatim. -/

/-- database.go `DatabaseConfig`. -/
structure DatabaseConfig where
  tableName : String := ""
  deriving DecidableEq, Repr

/-- database.go `DefaultDatabaseConfig`. -/
def defaultDatabaseConfig : DatabaseConfig := { tableName := "audit_logs" }

/-- The six per-dialect secondary-index DDL statements (postgres/sqlite
shape), each referencing the table name twice. -/
def indexStmtsSQL (t : String) : String :=
  "CREATE INDEX IF NOT EXISTS idx_" ++ t ++ "_user_id ON " ++ t ++ "(user_id);\n" ++
  "CREATE INDEX IF NOT EXISTS idx_" ++ t ++ "_challenge_id ON " ++ t ++ "(challenge_id);\n" ++
  "CREATE INDEX IF NOT EXISTS idx_" ++ t ++ "_session_id ON " ++ t ++ "(session_id);\n" ++
  "CREATE INDEX IF NOT EXISTS idx_" ++ t ++ "_event_type ON " ++ t ++ "(event_type);\n" ++
  "CREATE INDEX IF NOT EXISTS idx_" ++ t ++ "_timestamp ON " ++ t ++ "(timestamp);\n" ++
  "CREATE INDEX IF NOT EXISTS idx_" ++ t ++ "_created_at ON " ++ t ++ "(created_at);\n"

/-- The column list shared by the three dialect templates (database.go
`createTable`), parameterized by the dialect-specific pieces. -/
def columnsSQL (metaType : String) : String :=
  " event_type VARCHAR(50) NOT NULL,\n" ++
  " event_id VARCHAR(100),\n" ++
  " user_id VARCHAR(100),\n" ++
  " challenge_id VARCHAR(100),\n" ++
  " session_id VARCHAR(100),\n" ++
  " channel VARCHAR(20),\n" ++
  " destination VARCHAR(255),\n" ++
  " purpose VARCHAR(50),\n" ++
  " resource VARCHAR(255),\n" ++
  " result VARCHAR(20),\n" ++
  " reason VARCHAR(255),\n" ++
  " provider VARCHAR(50),\n" ++
  " provider_message_id VARCHAR(255),\n" ++
  " ip VARCHAR(45),\n" ++
  " user_agent TEXT,\n" ++
  " request_id VARCHAR(100),\n" ++
  " trace_id VARCHAR(100),\n" ++
  " timestamp BIGINT NOT NULL,\n" ++
  " duration_ms BIGINT,\n" ++
  " metadata " ++ metaType ++ ",\n"

/-- database.go `createTable` DDL template per dialect, with the table name
spliced in exactly where the `fmt.Sprintf` verbs put it. -/
def createTableSQL (dbType tableName : String) : Option String :=
  match dbType with
  | "postgres" => some (
      "\nCREATE TABLE IF NOT EXISTS " ++ tableName ++ " (\n" ++
      " id BIGSERIAL PRIMARY KEY,\n" ++ columnsSQL "JSONB" ++
      " created_at TIMESTAMP NOT NULL DEFAULT NOW()\n);\n\n" ++
      indexStmtsSQL tableName)
  | "mysql" => some (
      "\nCREATE TABLE IF NOT EXISTS " ++ tableName ++ " (\n" ++
      " id BIGINT AUTO_INCREMENT PRIMARY KEY,\n" ++ columnsSQL "JSON" ++
      " created_at TIMESTAMP NOT NULL DEFAULT CURRENT_TIMESTAMP,\n" ++
      " INDEX idx_" ++ tableName ++ "_user_id (user_id),\n" ++
      " INDEX idx_" ++ tableName ++ "_challenge_id (challenge_id),\n" ++
      " INDEX idx_" ++ tableName ++ "_session_id (session_id),\n" ++
      " INDEX idx_" ++ tableName ++ "_event_type (event_type),\n" ++
      " INDEX idx_" ++ tableName ++ "_timestamp (timestamp),\n" ++
      " INDEX idx_" ++ tableName ++ "_created_at (created_at)\n" ++
      ") ENGINE=InnoDB DEFAULT CHARSET=utf8mb4;\n")
  | "sqlite" => some (
      "\nCREATE TABLE IF NOT EXISTS " ++ tableName ++ " (\n" ++
      " id INTEGER PRIMARY KEY AUTOINCREMENT,\n" ++ columnsSQL "TEXT" ++
      " created_at TIMESTAMP NOT NULL DEFAULT CURRENT_TIMESTAMP\n);\n\n" ++
      indexStmtsSQL tableName)
  | _ => none

/-- ASCII whitespace (the characters `strings.TrimSpace` strips in the DDL
templates, which contain no other space-like characters). -/
def isSpaceChar (c : Char) : Bool :=
  c = ' ' ∨ c = '\n' ∨ c = '\t' ∨ c = '\r'

/-- `strings.TrimSpace` over the characters of a string. -/
def trimChars (cs : List Char) : List Char :=
  ((cs.dropWhile isSpaceChar).reverse.dropWhile isSpaceChar).reverse

/-- `strings.Split(s, ";")` over the characters of a string. -/
def splitSemi (cs : List Char) : List (List Char) :=
  cs.foldr
    (fun c acc =>
      if c = ';' then [] :: acc
      else
        match acc with
        | h :: t => (c :: h) :: t
        | [] => [[c]])
    [[]]

/-- database.go `createTable` execution: split on `;`, trim, skip empties,
execute each remaining statement against the driver. -/
def createTableStmts (dbType tableName : String) : Except String (List String) :=
  match createTableSQL dbType tableName with
  | none => .error ("unsupported database type: " ++ dbType)
  | some sql =>
    .ok ((((splitSemi sql.toList).map fun cs => String.mk (trimChars cs)).filter
      (· ≠ "")))

/-- database.go `DatabaseStorage` (connection handle abstracted away). -/
structure DatabaseStorage where
  dbType : String
  tableName : String
  deriving DecidableEq, Repr

/-- database.go `NewDatabaseStorageFromDB`: nil config defaults, database
type allow-list, then `createTable`.  Returns the storage together with the
SQL statements executed during construction. -/
def newDatabaseStorageFromDB (dbType : String) (config : Option DatabaseConfig) :
    Except String (DatabaseStorage × List String) :=
  let config := config.getD defaultDatabaseConfig
  if dbType ≠ "postgres" ∧ dbType ≠ "mysql" ∧ dbType ≠ "sqlite" then
    .error ("unsupported database type: " ++ dbType)
  else
    match createTableStmts dbType config.tableName with
    | .error e => .error ("failed to create table: " ++ e)
    | .ok stmts => .ok ({ dbType := dbType, tableName := config.tableName }, stmts)

/-- The SQL statements a construction attempt executed (none on failure). -/
def execStmts (e : Except String (DatabaseStorage × List String)) : List String :=
  match e with
  | .ok p => p.2
  | .error _ => []

/-! ## Fan-out storage (factory.go `MultiStorage`) -/

/-- An arbitrary backend as `MultiStorage` observes one: an identity, the
result its `Write` returns, and the result its `Query` returns. -/
structure StubStorage where
  sid : Nat
  writeErr : Option String := none
  queryRes : Except String (List Record) := .ok []
  deriving Repr

/-- factory.go `MultiStorage.Write`: call `Write` on every non-nil backend,
remembering only the first error.  Returns the ids of the backends whose
`Write` was called, and the returned error. -/
def multiWrite (storages : List (Option StubStorage)) : List Nat × Option String :=
  storages.foldl
    (fun acc s =>
      match s with
      | none => acc
      | some st => (acc.1 ++ [st.sid], acc.2 <|> st.writeErr))
    ([], none)

/-- factory.go `MultiStorage.Query`: return the first non-nil backend's
`Query` result; error if none is configured. -/
def multiQuery (storages : List (Option StubStorage)) : Except String (List Record) :=
  match storages with
  | [] => .error "no storage configured"
  | none :: rest => multiQuery rest
  | some st :: _ => st.queryRes

/-! ## Logger facade (logger.go)

The masking transform is an external collaborator (mask.go delegates to
secure-kit), passed in as the pure function `mask(destination, channel)`;
the clock is passed in as `now`. -/

/-- logger.go `Config` (`TTL` and the writer configuration are consumed at
construction only, never by `Log`, and are omitted). -/
structure Config where
  enabled : Bool := true
  maskDestination : Bool := true
  deriving DecidableEq, Repr

/-- logger.go `Logger`: configuration, an optional async writer, an optional
synchronous storage (its stored records), and whether a log callback is
set. -/
structure Logger where
  config : Config
  hasWriter : Bool := false
  writer : Writer := newWriter true none 1000 2
  syncStorage : Option (List Record) := none
  hasCallback : Bool := false
  deriving DecidableEq, Repr

/-- Everything logger.go `Log` can affect: the logger (through its writer
queue or storage), the record it mutates in place, whether the callback ran,
and whether the call panicked (an `Enqueue` on a stopped writer would). -/
structure LogOutcome where
  logger : Logger
  record : Record
  callbackInvoked : Bool
  panicked : Bool
  deriving DecidableEq, Repr

/-- logger.go `Logger.Log`: if disabled, return immediately; otherwise
assign the timestamp if zero, mask the destination if configured, hand the
record to the async writer when present else write synchronously (a sync
write error is only logged), and finally invoke the callback if set. -/
def loggerLog (mask : String → String → String) (now : Int)
    (l : Logger) (record : Record) : LogOutcome :=
  if ¬ l.config.enabled then
    { logger := l, record := record, callbackInvoked := false, panicked := false }
  else
    let record :=
      if record.timestamp = 0 then { record with timestamp := now } else record
    let record :=
      if l.config.maskDestination ∧ record.destination ≠ "" then
        { record with destination := mask record.destination record.channel }
      else record
    if l.hasWriter then
      let res := l.writer.enqueue record
      { logger := { l with writer := res.1 }, record := record,
        callbackInvoked := l.hasCallback, panicked := res.2 = .panicked }
    else
      match l.syncStorage with
      | some recs =>
        { logger := { l with syncStorage := some (recs ++ [record]) },
          record := record, callbackInvoked := l.hasCallback, panicked := false }
      | none =>
        { logger := l, record := record, callbackInvoked := l.hasCallback,
          panicked := false }

/-! ### C6: round-trip ordering -/

/-- The otherwise-empty filter used by the round-trip scenario: defaults
with `limit` set to n. -/
def emptyLimitFilter (n : Nat) : QueryFilter :=
  { defaultQueryFilter with limit := (n : Int) }

/-- Record with timestamp 1 for the out-of-order write counterexample. -/
def c6r1 : Record := { eventType := "login_success", timestamp := 1 }

/-- Record with timestamp 3, written second. -/
def c6r2 : Record := { eventType := "login_success", timestamp := 3 }

/-- Record with timestamp 2, written last. -/
def c6r3 : Record := { eventType := "login_success", timestamp := 2 }

/-! ## Theorems -/

/-- C1: the claim fails on the code.  After `Stop` has closed the queue
channel, `Enqueue` reaches `case w.queue <- record` on a closed channel and
panics instead of returning false: `Enqueue` has no started/stopped check
and `Stop` closes the very channel `Enqueue` sends on.  The repository's own
test `TestWriter_EnqueueAfterStop` expects `false` without a panic. -/
theorem enqueue_after_stop_panics :
    (c1Writer.enqueue { eventType := "login_success" }).2 =
      EnqueueOutcome.panicked ∧ c1Writer.stopped = true := by
  decide

/-- C7 counterexample: for a started writer whose backend `Close` returns an
error, the FIRST `Stop` already returns that error (`Stop` returns
`w.storage.Close()`), so "calling Stop twice returns no error both times"
is false for this writer. -/
theorem stop_twice_error_counterexample :
    c7Writer.started = true ∧ c7Writer.stop.2 = some "close error" := by
  decide

/-- C7 (amended): for every started writer, `Stop` leaves the `Stopped` flag
true (also as reported by `GetStats`), a second `Stop` is a no-op that
changes nothing — in particular it does not close the backend again — and
returns no error; the first `Stop` returns the backend's `Close` result, so
both calls return no error whenever that `Close` succeeds (or no backend is
configured). -/
theorem stop_twice_idempotent (w : Writer) (h : w.started = true) :
    (w.stop.1).stopped = true ∧
    (w.stop.1).getStats.stopped = true ∧
    (w.stop.1).stop = (w.stop.1, none) ∧
    (w.storageCloseErr = none → w.stop.2 = none) := by
  unfold Writer.stop
  by_cases hs : w.stopped <;> by_cases hp : w.storagePresent <;>
    simp [h, hs, hp, Writer.getStats]

/-- Witness for C7: the idempotence theorem applied to a concrete started
writer with a well-behaved backend. -/
theorem stop_twice_idempotent_witness :
    ((newWriter true none 10 1).start.stop.1).stopped = true ∧
    ((newWriter true none 10 1).start.stop.1).getStats.stopped = true ∧
    ((newWriter true none 10 1).start.stop.1).stop =
      ((newWriter true none 10 1).start.stop.1, none) ∧
    ((newWriter true none 10 1).start.storageCloseErr = none →
      (newWriter true none 10 1).start.stop.2 = none) :=
  stop_twice_idempotent (newWriter true none 10 1).start (by decide)

/-- C4: the claim fails on the code.  On a path that resolves to a symbolic
link (and an otherwise healthy file system), `NewFileStorage` succeeds —
there is no symlink inspection anywhere in it — and it passes 0755/0644
(group/other-accessible), not owner-only permissions.  The repository's own
tests `TestNewFileStorage_RefusesSymlink`, `TestNewFileStorage` and
`TestNewFileStorage_CreateDir` expect refusal and `perm &0o077 == 0`. -/
theorem newFileStorage_accepts_symlink :
    (newFileStorage
        { pathIsSymlink := true, mkdirFails := false, openFails := false }).ok
        = true ∧
    (newFileStorage
        { pathIsSymlink := true, mkdirFails := false, openFails := false
          }).symlinkChecked = false ∧
    (newFileStorage
        { pathIsSymlink := true, mkdirFails := false, openFails := false
          }).dirPerm = some 0o755 ∧
    (newFileStorage
        { pathIsSymlink := true, mkdirFails := false, openFails := false
          }).filePerm = some 0o644 := by
  decide

/-- When every line fits under the ceiling, the scan loop succeeds and yields
exactly the decodable lines' records, in file order. -/
theorem scanRecords_ok_of_fits (lines : List FileLine)
    (h : ∀ l ∈ lines, l.len ≤ MaxRecordJSONSize) :
    scanRecords lines = .ok (lines.filterMap FileLine.decoded) := by
  induction lines with
  | nil => rfl
  | cons l rest ih =>
    have hl : ¬ l.len > MaxRecordJSONSize := by
      have := h l (by simp)
      omega
    have hrest := ih fun x hx => h x (by simp [hx])
    cases l <;> simp [scanRecords, hl, hrest, FileLine.decoded, Except.map]

/-- C5 counterexample: on a stored file holding one well-formed matching
record and one oversized line, `Query` does not skip the oversized line and
return the match — `bufio.Scanner` fails with `ErrTooLong` and `Query`
returns that error (exactly what the repository test
`TestFileStorage_Query_OversizedLine` asserts). -/
theorem fileQuery_oversized_line_fatal :
    fileStorageQuery c5Lines none =
      .error "failed to read file: bufio.Scanner: token too long" := by
  rfl

/-- C5 (amended): for every stored file whose lines all fit under the
per-line ceiling, `Query` succeeds, and empty or malformed lines are
skipped without affecting the result — the query answers as if those lines
were absent.  (A line over the ceiling is instead fatal to the whole query,
per the counterexample.) -/
theorem fileQuery_skips_malformed (lines : List FileLine)
    (filter : Option QueryFilter)
    (h : ∀ l ∈ lines, l.len ≤ MaxRecordJSONSize) :
    (fileStorageQuery lines filter).isOk = true ∧
    fileStorageQuery lines filter =
      fileStorageQuery (lines.filter FileLine.isParsed) filter := by
  have hf : ∀ l ∈ lines.filter FileLine.isParsed, l.len ≤ MaxRecordJSONSize :=
    fun l hl => h l (List.mem_of_mem_filter hl)
  have key : ∀ ls : List FileLine,
      (ls.filter FileLine.isParsed).filterMap FileLine.decoded =
        ls.filterMap FileLine.decoded := by
    intro ls
    induction ls with
    | nil => rfl
    | cons l rest ih =>
      cases l <;> simp [FileLine.isParsed, FileLine.decoded, ih]
  unfold fileStorageQuery
  rw [scanRecords_ok_of_fits lines h, scanRecords_ok_of_fits _ hf, key]
  simp [Except.isOk, Except.toBool]

/-- Witness for C5: the skipping theorem applied to a concrete file holding a
record line, a malformed line and an empty line. -/
theorem fileQuery_skips_malformed_witness :
    (∀ l ∈ ([.parsed { eventType := "logout", timestamp := 7 } 40,
             .malformed 9, .empty] : List FileLine),
        l.len ≤ MaxRecordJSONSize) ∧
    (fileStorageQuery
        [.parsed { eventType := "logout", timestamp := 7 } 40,
         .malformed 9, .empty] none).isOk = true ∧
    fileStorageQuery
        [.parsed { eventType := "logout", timestamp := 7 } 40,
         .malformed 9, .empty] none =
      fileStorageQuery
        (([.parsed { eventType := "logout", timestamp := 7 } 40,
           .malformed 9, .empty] : List FileLine).filter FileLine.isParsed)
        none :=
  ⟨by decide,
   fileQuery_skips_malformed
     [.parsed { eventType := "logout", timestamp := 7 } 40, .malformed 9, .empty]
     none (by decide)⟩

/-- C3: the claim fails on the code.  Two records with no identifiers and
the same timestamp both derive the key `prefix + timestamp`, so the second
`SET` overwrites the first and `ZADD` re-adds the same index member:
`Query` returns only the second record, not both.  The repository's own
test `TestRedisStorage_Write_SameSecondNoID` expects both. -/
theorem redis_same_second_no_id_overwrites :
    c3r1 ≠ c3r2 ∧
    recordKey c3r1 = recordKey c3r2 ∧
    redisQuery (redisWriteAll {} [c3r1, c3r2])
        (some { defaultQueryFilter with limit := 10 }) = [c3r2] := by
  decide

set_option maxRecDepth 100000 in
/-- C2: the claim fails on the code.  No table-name validation exists on the
construction path (the tests call a `validateTableName` that no source file
defines, and the constructors never invoke any check): constructing a
sqlite-backed storage with table name `"bad; drop table x"` succeeds, and
the injected name reaches the driver — after `createTable` splits its
rendered DDL on `;`, one executed statement literally begins with
`drop table x`.  The repository's own test
`TestNewDatabaseStorageFromDB_InvalidTableName` expects an error instead. -/
theorem database_accepts_injected_table_name :
    (newDatabaseStorageFromDB "sqlite"
        (some { tableName := "bad; drop table x" })).isOk = true ∧
    (execStmts (newDatabaseStorageFromDB "sqlite"
        (some { tableName := "bad; drop table x" }))).head? =
      some "CREATE TABLE IF NOT EXISTS bad" ∧
    ((execStmts (newDatabaseStorageFromDB "sqlite"
        (some { tableName := "bad; drop table x" }))).any
        fun st => "drop table x".toList.isPrefixOf st.toList) = true := by
  refine ⟨rfl, by decide, by decide⟩

/-- The `MultiStorage.Write` fold, with the accumulator generalized. -/
theorem multiWrite_foldl (storages : List (Option StubStorage))
    (acc : List Nat × Option String) :
    storages.foldl
        (fun acc s =>
          match s with
          | none => acc
          | some st => (acc.1 ++ [st.sid], acc.2 <|> st.writeErr)) acc =
      (acc.1 ++ storages.reduceOption.map StubStorage.sid,
       acc.2 <|> storages.reduceOption.findSome? StubStorage.writeErr) := by
  induction storages generalizing acc with
  | nil => simp [List.reduceOption]
  | cons s rest ih =>
    cases s with
    | none => simp only [List.foldl_cons, List.reduceOption_cons_of_none, ih]
    | some st =>
      simp only [List.foldl_cons, List.reduceOption_cons_of_some, ih,
        List.map_cons, List.findSome?_cons]
      cases h2 : acc.2 <;> cases hw : st.writeErr <;>
        simp [Option.orElse, List.append_assoc]

/-- C9: `MultiStorage.Write` calls `Write` on every non-nil backend — also
when earlier ones fail — and returns the first error encountered (none if
none fail); `MultiStorage.Query` returns exactly the first non-nil
backend's result (no merge), erroring only when no backend is
configured. -/
theorem multiStorage_writes_all_queries_first
    (storages : List (Option StubStorage)) :
    (multiWrite storages).1 = storages.reduceOption.map StubStorage.sid ∧
    (multiWrite storages).2 =
      storages.reduceOption.findSome? StubStorage.writeErr ∧
    multiQuery storages =
      (match storages.reduceOption.head? with
       | some st => st.queryRes
       | none => .error "no storage configured") := by
  refine ⟨?_, ?_, ?_⟩
  · unfold multiWrite
    rw [multiWrite_foldl]
    simp
  · unfold multiWrite
    rw [multiWrite_foldl]
    simp [Option.orElse]
  · induction storages with
    | nil => rfl
    | cons s rest ih =>
      cases s with
      | none => simpa [multiQuery, List.reduceOption_cons_of_none] using ih
      | some st => simp [multiQuery, List.reduceOption_cons_of_some]

/-- C10: when the configuration has `Enabled=false`, `Log` returns
immediately: the logger (writer queue and storage included) is unchanged,
the record is returned exactly as passed (no timestamp auto-assignment, no
destination masking), the callback is not invoked, and nothing panics —
for every masking function, clock value, logger and record. -/
theorem logger_disabled_is_noop (mask : String → String → String) (now : Int)
    (l : Logger) (r : Record) (h : l.config.enabled = false) :
    loggerLog mask now l r =
      { logger := l, record := r, callbackInvoked := false, panicked := false } := by
  unfold loggerLog
  simp [h]

/-- Witness for C10: the disabled-logger theorem applied to a concrete
disabled logger with a callback set and a record with a zero timestamp and
an unmasked destination. -/
theorem logger_disabled_is_noop_witness :
    ({ config := { enabled := false, maskDestination := true },
       syncStorage := some [], hasCallback := true } : Logger).config.enabled
      = false ∧
    loggerLog (fun _ _ => "****") 1234
        { config := { enabled := false, maskDestination := true },
          syncStorage := some [], hasCallback := true }
        { eventType := "login_success", destination := "user@example.com",
          channel := "email", timestamp := 0 } =
      { logger := { config := { enabled := false, maskDestination := true },
                    syncStorage := some [], hasCallback := true },
        record := { eventType := "login_success",
                    destination := "user@example.com", channel := "email",
                    timestamp := 0 },
        callbackInvoked := false, panicked := false } :=
  ⟨rfl,
   logger_disabled_is_noop (fun _ _ => "****") 1234
     { config := { enabled := false, maskDestination := true },
       syncStorage := some [], hasCallback := true }
     { eventType := "login_success", destination := "user@example.com",
       channel := "email", timestamp := 0 } rfl⟩

/-- Every derived key carries the record's timestamp. -/
theorem recordKey_ts (r : Record) : (recordKey r).ts = r.timestamp := by
  unfold recordKey
  split_ifs <;> rfl

/-- Equal keys force equal timestamps. -/
theorem recordKey_timestamp_eq {a b : Record} (h : recordKey a = recordKey b) :
    a.timestamp = b.timestamp := by
  have h2 := congrArg RKey.ts h
  rwa [recordKey_ts, recordKey_ts] at h2

/-- `SET` on an absent key appends. -/
theorem setKV_append (l : List (RKey × Record)) (k : RKey) (v : Record)
    (h : ∀ e ∈ l, e.1 ≠ k) : setKV l k v = l ++ [(k, v)] := by
  induction l with
  | nil => rfl
  | cons e rest ih =>
    obtain ⟨k1, v1⟩ := e
    have h1 : k1 ≠ k := h (k1, v1) (List.mem_cons_self _ _)
    simp [setKV, h1, ih fun x hx => h x (List.mem_cons_of_mem _ hx)]

/-- `ZADD` of an absent member appends. -/
theorem zadd_append (l : List (RKey × Int)) (k : RKey) (s : Int)
    (h : ∀ e ∈ l, e.1 ≠ k) : zadd l k s = l ++ [(k, s)] := by
  induction l with
  | nil => rfl
  | cons e rest ih =>
    obtain ⟨k1, s1⟩ := e
    have h1 : k1 ≠ k := h (k1, s1) (List.mem_cons_self _ _)
    simp [zadd, h1, ih fun x hx => h x (List.mem_cons_of_mem _ hx)]

/-- Under pairwise-distinct keys, `GET` of a written record's key returns
that record. -/
theorem getKV_map_self (rs : List Record)
    (hdist : (rs.map recordKey).Pairwise (· ≠ ·)) :
    ∀ r ∈ rs, getKV (rs.map fun x => (recordKey x, x)) (recordKey r) = some r := by
  induction rs with
  | nil => intro r hr; cases hr
  | cons x rest ih =>
    intro r hr
    rw [List.map_cons, List.pairwise_cons] at hdist
    rcases List.mem_cons.mp hr with rfl | hr2
    · simp [getKV]
    · have hx : recordKey x ≠ recordKey r :=
        hdist.1 _ (List.mem_map_of_mem recordKey hr2)
      simp [getKV, hx, ih hdist.2 r hr2]

/-- Writing records whose keys are fresh (for the initial empty state: any
pairwise-distinct keys) appends the corresponding store and index
entries in write order. -/
theorem redisWriteAll_append (rs : List Record) (s : RedisState)
    (hs : ∀ r ∈ rs, ∀ e ∈ s.store, e.1 ≠ recordKey r)
    (hi : ∀ r ∈ rs, ∀ e ∈ s.index, e.1 ≠ recordKey r)
    (hdist : (rs.map recordKey).Pairwise (· ≠ ·)) :
    redisWriteAll s rs =
      { store := s.store ++ rs.map fun r => (recordKey r, r)
        index := s.index ++ rs.map fun r => (recordKey r, r.timestamp) } := by
  induction rs generalizing s with
  | nil => simp [redisWriteAll]
  | cons r rest ih =>
    rw [List.map_cons, List.pairwise_cons] at hdist
    have hstep : redisWrite s r =
        { store := s.store ++ [(recordKey r, r)]
          index := s.index ++ [(recordKey r, r.timestamp)] } := by
      unfold redisWrite
      rw [setKV_append _ _ _ (hs r (List.mem_cons_self _ _)),
          zadd_append _ _ _ (hi r (List.mem_cons_self _ _))]
    have hchain : redisWriteAll s (r :: rest) = redisWriteAll (redisWrite s r) rest := rfl
    rw [hchain, hstep, ih]
    · simp
    · intro x hx e he
      rcases List.mem_append.mp he with h1 | h1
      · exact hs x (List.mem_cons_of_mem _ hx) e h1
      · rw [List.mem_singleton] at h1
        subst h1
        exact hdist.1 _ (List.mem_map_of_mem recordKey hx)
    · intro x hx e he
      rcases List.mem_append.mp he with h1 | h1
      · exact hi x (List.mem_cons_of_mem _ hx) e h1
      · rw [List.mem_singleton] at h1
        subst h1
        exact hdist.1 _ (List.mem_map_of_mem recordKey hx)
    · exact hdist.2

/-- A filter whose predicate fields are all unset matches every record. -/
theorem matchesFilter_of_trivial (r : Record) (f : QueryFilter)
    (h1 : f.eventType = "") (h2 : f.userID = "") (h3 : f.challengeID = "")
    (h4 : f.sessionID = "") (h5 : f.channel = "") (h6 : f.result = "")
    (h7 : f.ip = "") (h8 : f.startTime ≤ 0) (h9 : f.endTime ≤ 0) :
    matchesFilter r f = true := by
  have n8 : ¬ f.startTime > 0 := by omega
  have n9 : ¬ f.endTime > 0 := by omega
  simp [matchesFilter, h1, h2, h3, h4, h5, h6, h7, n8, n9]

/-- Normalization keeps a filter whose pagination is already in range. -/
theorem normalize_in_range (f : QueryFilter) (h1 : 1 ≤ f.limit)
    (h2 : f.limit ≤ 1000) (h3 : 0 ≤ f.offset) : f.normalize = f := by
  unfold QueryFilter.normalize
  have n1 : ¬ f.limit ≤ 0 := by omega
  have n2 : ¬ f.limit > 1000 := by omega
  have n3 : ¬ f.offset < 0 := by omega
  simp [n1, n2, n3]

/-- An unbounded range scan with a large enough count returns the whole
index, score-descending. -/
theorem zRevRangeByScore_all (I : List (RKey × Int)) (count : Nat)
    (h : I.length ≤ count) :
    zRevRangeByScore I none none 0 count = (I.insertionSort scoreGE).map Prod.fst := by
  have hfilter : (I.filter fun e =>
      ((none : Option Int).all fun m => decide (m ≤ e.2)) &&
        ((none : Option Int).all fun M => decide (e.2 ≤ M))) = I := by
    simp [Option.all]
  have hlen : (I.insertionSort scoreGE).length ≤ count := by
    rw [(List.perm_insertionSort scoreGE I).length_eq]
    exact h
  unfold zRevRangeByScore
  simp only [hfilter, List.drop_zero]
  rw [List.take_of_length_le hlen]

/-- Fetching the keys of any permutation of the index recovers a
permutation of the written records, when the filter matches them all. -/
theorem redisFetch_perm (rs : List Record) (f : QueryFilter)
    (sortedIdx : List (RKey × Int))
    (hperm : List.Perm sortedIdx (rs.map fun x => (recordKey x, x.timestamp)))
    (hkd : (rs.map recordKey).Pairwise (· ≠ ·))
    (hmatch : ∀ r ∈ rs, matchesFilter r f = true) :
    List.Perm (redisFetch (rs.map fun x => (recordKey x, x)) f (sortedIdx.map Prod.fst)) rs := by
  unfold redisFetch
  rw [List.filterMap_map]
  refine (hperm.filterMap _).trans ?_
  rw [List.filterMap_map]
  have hpt : ∀ r ∈ rs,
      (((fun k =>
          match getKV (rs.map fun x => (recordKey x, x)) k with
          | none => none
          | some r => if matchesFilter r f then some r else none) ∘ Prod.fst) ∘
        fun x => (recordKey x, x.timestamp)) r = some r := by
    intro r hr
    simp only [Function.comp]
    rw [getKV_map_self rs hkd r hr]
    simp [hmatch r hr]
  rw [List.filterMap_congr hpt, List.filterMap_some]

/-- Pagination with a zero offset and a limit at least the list length is
the identity. -/
theorem paginate_all (f : QueryFilter) (l : List Record)
    (hoff : f.offset = 0) (hne : 1 ≤ l.length)
    (hcap : (l.length : Int) ≤ f.limit) : paginate f l = l := by
  have h0 : f.offset.toNat = 0 := by omega
  have h1 : ¬ l.length ≤ (0 : Nat) := by omega
  have h2 : l.length ≤ f.limit.toNat := by omega
  unfold paginate
  simp only [h0, List.drop_zero]
  rw [if_neg h1, List.take_of_length_le h2]

/-- Sorting any permutation of records with pairwise-distinct timestamps
yields a list of the same length in strictly descending timestamp order. -/
theorem insertionSort_desc_of_perm (l rs : List Record) (hperm : List.Perm l rs)
    (hdist : (rs.map Record.timestamp).Pairwise (· ≠ ·)) :
    (l.insertionSort tsGE).length = rs.length ∧
    ((l.insertionSort tsGE).map Record.timestamp).Pairwise (· > ·) := by
  have hperm2 : List.Perm (l.insertionSort tsGE) rs :=
    (List.perm_insertionSort tsGE l).trans hperm
  constructor
  · exact hperm2.length_eq
  · have hsorted : List.Pairwise tsGE (l.insertionSort tsGE) :=
      List.sorted_insertionSort tsGE l
    have hge : ((l.insertionSort tsGE).map Record.timestamp).Pairwise
        (fun a b => b ≤ a) := List.pairwise_map.mpr hsorted
    have htsne : ((l.insertionSort tsGE).map Record.timestamp).Pairwise (· ≠ ·) :=
      ((hperm2.map Record.timestamp).pairwise_iff fun h => h.symm).mpr hdist
    exact (hge.and htsne).imp fun h => lt_of_le_of_ne h.1 h.2.symm

/-- The cache-store round trip: writing any records with pairwise-distinct
timestamps (at most 1000 of them) into an empty store and querying with
`limit = N` over an otherwise-empty filter returns exactly N records, in
strictly descending timestamp order. -/
theorem redis_roundtrip (rs : List Record)
    (hdist : (rs.map Record.timestamp).Pairwise (· ≠ ·))
    (hlen : rs.length ≤ 1000) :
    (redisQuery (redisWriteAll {} rs)
        (some (emptyLimitFilter rs.length))).length = rs.length ∧
    ((redisQuery (redisWriteAll {} rs)
        (some (emptyLimitFilter rs.length))).map
        Record.timestamp).Pairwise (· > ·) := by
  have hkd : (rs.map recordKey).Pairwise (· ≠ ·) := by
    rw [List.pairwise_map] at hdist ⊢
    exact hdist.imp fun hne hk => hne (recordKey_timestamp_eq hk)
  rcases hrs : rs with _ | ⟨r0, rest⟩
  · exact ⟨rfl, List.Pairwise.nil⟩
  rw [← hrs]
  have hlen1 : 1 ≤ rs.length := by rw [hrs]; simp
  have hN1 : (1 : Int) ≤ (rs.length : Int) := by exact_mod_cast hlen1
  have hN1000 : ((rs.length : Int)) ≤ 1000 := by exact_mod_cast hlen
  have hnorm : (emptyLimitFilter rs.length).normalize = emptyLimitFilter rs.length :=
    normalize_in_range _ hN1 hN1000 (by simp [emptyLimitFilter, defaultQueryFilter])
  have hstate : redisWriteAll {} rs =
      { store := rs.map fun x => (recordKey x, x)
        index := rs.map fun x => (recordKey x, x.timestamp) } := by
    have h := redisWriteAll_append rs {} (by intro r _ e he; cases he)
      (by intro r _ e he; cases he) hkd
    simpa using h
  have hfetchperm :
      List.Perm
        (redisFetch (rs.map fun x => (recordKey x, x)) (emptyLimitFilter rs.length)
          (((rs.map fun x => (recordKey x, x.timestamp)).insertionSort
            scoreGE).map Prod.fst)) rs :=
    redisFetch_perm rs _ _ (List.perm_insertionSort _ _) hkd
      fun r _ => matchesFilter_of_trivial r _ rfl rfl rfl rfl rfl rfl rfl
        (by simp [emptyLimitFilter, defaultQueryFilter])
        (by simp [emptyLimitFilter, defaultQueryFilter])
  have hq : redisQuery (redisWriteAll {} rs) (some (emptyLimitFilter rs.length)) =
      ((redisFetch (rs.map fun x => (recordKey x, x)) (emptyLimitFilter rs.length)
          (((rs.map fun x => (recordKey x, x.timestamp)).insertionSort
            scoreGE).map Prod.fst)).insertionSort tsGE) := by
    rw [hstate]
    unfold redisQuery
    rw [Option.getD_some, hnorm]
    have hminB : (if (emptyLimitFilter rs.length).startTime > 0 then
        some (emptyLimitFilter rs.length).startTime else none) = none := rfl
    have hmaxB : (if (emptyLimitFilter rs.length).endTime > 0 then
        some (emptyLimitFilter rs.length).endTime else none) = none := rfl
    have hcount : ((emptyLimitFilter rs.length).limit +
        (emptyLimitFilter rs.length).offset + 100).toNat = rs.length + 100 := by
      simp [emptyLimitFilter, defaultQueryFilter]
      omega
    simp only [hminB, hmaxB, hcount]
    rw [zRevRangeByScore_all _ _ (by simp)]
    refine paginate_all _ _ rfl ?_ ?_
    · rw [((List.perm_insertionSort tsGE _).trans hfetchperm).length_eq]
      exact hlen1
    · rw [((List.perm_insertionSort tsGE _).trans hfetchperm).length_eq]
      simp [emptyLimitFilter, defaultQueryFilter]
  rw [hq]
  exact insertionSort_desc_of_perm _ rs hfetchperm hdist

/-- The collect loop gathers every record when all match, the offset is
zero, and the limit is large enough. -/
theorem fileCollect_all (f : QueryFilter) (l : List Record)
    (hmatch : ∀ r ∈ l, matchesFilter r f = true)
    (hoff : f.offset ≤ 0) :
    ∀ acc : List Record, ((acc.length : Int) + l.length ≤ f.limit) →
    fileCollect f l 0 acc = acc ++ l := by
  induction l with
  | nil => intro acc _; simp [fileCollect]
  | cons r rest ih =>
    intro acc hcap
    have hm : ¬ ¬ matchesFilter r f = true := by
      simp [hmatch r (List.mem_cons_self _ _)]
    have hno : ¬ ((0 : Int) < f.offset) := by omega
    simp only [fileCollect]
    rw [if_neg hm, if_neg hno]
    by_cases hbreak : (((acc ++ [r]).length : Int) ≥ f.limit)
    · rw [if_pos hbreak]
      have hr0 : rest.length = 0 := by
        simp only [List.length_append, List.length_cons, List.length_singleton,
          List.length_nil] at hbreak hcap ⊢
        omega
      rw [List.eq_nil_of_length_eq_zero hr0]
    · rw [if_neg hbreak]
      rw [ih (fun x hx => hmatch x (List.mem_cons_of_mem _ hx)) (acc ++ [r])
        (by simp only [List.length_append, List.length_cons, List.length_nil] at hcap ⊢; push_cast; push_cast at hcap; omega)]
      simp

/-- The file-backend round trip: `Query` with a zero offset, an
otherwise-empty filter and `limit = N` over N stored records returns them
all, in reverse write order. -/
theorem file_roundtrip (ps : List (Record × Nat))
    (hfits : ∀ p ∈ ps, p.2 ≤ MaxRecordJSONSize)
    (hlen : ps.length ≤ 1000) :
    fileStorageQuery (fileLinesOf ps) (some (emptyLimitFilter ps.length)) =
      .ok (ps.map Prod.fst).reverse := by
  have hscan : scanRecords (fileLinesOf ps) = .ok (ps.map Prod.fst) := by
    rw [show fileLinesOf ps = ps.map (fun p => FileLine.parsed p.1 p.2) from rfl]
    rw [scanRecords_ok_of_fits]
    · rw [List.filterMap_map]
      have hcongr : List.filterMap
          (FileLine.decoded ∘ fun p : Record × Nat => FileLine.parsed p.1 p.2) ps =
          List.filterMap (some ∘ Prod.fst) ps :=
        List.filterMap_congr fun p _ => rfl
      rw [hcongr, List.filterMap_eq_map]
    · intro l hl
      obtain ⟨p, hp, rfl⟩ := List.mem_map.mp hl
      exact hfits p hp
  rcases hps : ps with _ | ⟨p0, pest⟩
  · rfl
  rw [← hps]
  have hlen1 : 1 ≤ ps.length := by rw [hps]; simp
  have hN1 : (1 : Int) ≤ (ps.length : Int) := by exact_mod_cast hlen1
  have hN1000 : ((ps.length : Int)) ≤ 1000 := by exact_mod_cast hlen
  have hnorm : (emptyLimitFilter ps.length).normalize = emptyLimitFilter ps.length :=
    normalize_in_range _ hN1 hN1000 (by simp [emptyLimitFilter, defaultQueryFilter])
  unfold fileStorageQuery
  rw [Option.getD_some, hnorm]
  simp only [hscan]
  rw [fileCollect_all _ _
    (fun r _ => matchesFilter_of_trivial r _ rfl rfl rfl rfl rfl rfl rfl
      (by simp [emptyLimitFilter, defaultQueryFilter])
      (by simp [emptyLimitFilter, defaultQueryFilter]))
    (by simp [emptyLimitFilter, defaultQueryFilter]) []
    (by simp [emptyLimitFilter, defaultQueryFilter])]
  rfl

/-- C6 counterexample: the claim fails for the file backend under an
out-of-order write sequence.  `FileStorage.Query` performs no sort — it only
reverses the read order — so after writing timestamps 1, 3, 2 (pairwise
distinct) and querying with `limit = 3`, the returned timestamps are
2, 3, 1, which is not descending. -/
theorem file_query_not_time_sorted :
    fileStorageQuery (fileLinesOf [(c6r1, 64), (c6r2, 64), (c6r3, 64)])
        (some (emptyLimitFilter 3)) = .ok [c6r3, c6r2, c6r1] ∧
    ¬ (([c6r3, c6r2, c6r1].map Record.timestamp).Pairwise (· > ·)) := by
  constructor
  · rfl
  · decide

/-- C6 (amended): `Query` returns matches newest-first as claimed for the
cache-store backend in any write order (it sorts explicitly): writing N
records (N ≤ 1000) with pairwise-distinct timestamps and querying with
`limit = N` returns exactly N records in strictly descending timestamp
order.  For the file backend, `Query` returns matches in reverse write
order, so the same round trip holds provided the records were written in
increasing timestamp order (as the write path's auto-assigned timestamps
produce) — not in arbitrary write order. -/
theorem query_roundtrip_descending :
    (∀ rs : List Record,
        (rs.map Record.timestamp).Pairwise (· ≠ ·) → rs.length ≤ 1000 →
        (redisQuery (redisWriteAll {} rs)
            (some (emptyLimitFilter rs.length))).length = rs.length ∧
        ((redisQuery (redisWriteAll {} rs)
            (some (emptyLimitFilter rs.length))).map
            Record.timestamp).Pairwise (· > ·)) ∧
    (∀ ps : List (Record × Nat),
        (∀ p ∈ ps, p.2 ≤ MaxRecordJSONSize) →
        ((ps.map Prod.fst).map Record.timestamp).Pairwise (· < ·) →
        ps.length ≤ 1000 →
        fileStorageQuery (fileLinesOf ps) (some (emptyLimitFilter ps.length)) =
          .ok ((ps.map Prod.fst).reverse) ∧
        ((ps.map Prod.fst).reverse.length = ps.length) ∧
        (((ps.map Prod.fst).reverse.map Record.timestamp).Pairwise (· > ·))) := by
  constructor
  · exact redis_roundtrip
  · intro ps hfits hasc hlen
    refine ⟨file_roundtrip ps hfits hlen, by simp, ?_⟩
    rw [List.map_reverse, List.pairwise_reverse]
    exact hasc.imp fun h => h

/-- Witness for C6: both halves of the amended round-trip theorem applied at
concrete inputs — two no-id records with timestamps 5 and 3 written to the
cache store in descending order, and two records with timestamps 1 and 2
written to the file backend in ascending order. -/
theorem query_roundtrip_descending_witness :
    (redisQuery (redisWriteAll {}
        [{ eventType := "a", timestamp := 5 }, { eventType := "b", timestamp := 3 }])
        (some (emptyLimitFilter 2))).length = 2 ∧
    fileStorageQuery
        (fileLinesOf [({ eventType := "c", timestamp := 1 }, 8),
                      ({ eventType := "d", timestamp := 2 }, 8)])
        (some (emptyLimitFilter 2)) =
      .ok [{ eventType := "d", timestamp := 2 }, { eventType := "c", timestamp := 1 }] :=
  ⟨(query_roundtrip_descending.1
      [{ eventType := "a", timestamp := 5 }, { eventType := "b", timestamp := 3 }]
      (by decide) (by decide)).1,
   (query_roundtrip_descending.2
      [({ eventType := "c", timestamp := 1 }, 8),
       ({ eventType := "d", timestamp := 2 }, 8)]
      (by decide) (by decide) (by decide)).1⟩

/-- C8: normalization clamps the limit into `[1,1000]` exactly as claimed
(non-positive becomes 100, above 1000 becomes 1000, values already in range
are kept), clamps the offset to be at least 0, and is idempotent. -/
theorem normalize_clamps_and_idempotent (f : QueryFilter) :
    (f.limit ≤ 0 → (f.normalize).limit = 100) ∧
    (f.limit > 1000 → (f.normalize).limit = 1000) ∧
    (1 ≤ f.limit → f.limit ≤ 1000 → (f.normalize).limit = f.limit) ∧
    (1 ≤ (f.normalize).limit ∧ (f.normalize).limit ≤ 1000) ∧
    (0 ≤ (f.normalize).offset) ∧
    (0 ≤ f.offset → (f.normalize).offset = f.offset) ∧
    (f.normalize).normalize = f.normalize := by
  unfold QueryFilter.normalize
  by_cases h1 : f.limit ≤ 0 <;> by_cases h2 : f.limit > 1000 <;>
      by_cases h3 : f.offset < 0 <;>
    simp [h1, h2, h3] <;> omega

/-- Witness for C8: the clamping theorem applied at a concrete filter with a
negative limit and offset. -/
theorem normalize_clamps_and_idempotent_witness :
    (({ limit := -5, offset := -2 } : QueryFilter).normalize).limit = 100 ∧
    (({ limit := -5, offset := -2 } : QueryFilter).normalize).normalize =
      ({ limit := -5, offset := -2 } : QueryFilter).normalize :=
  ⟨(normalize_clamps_and_idempotent { limit := -5, offset := -2 }).1 (by decide),
   (normalize_clamps_and_idempotent
      { limit := -5, offset := -2 }).2.2.2.2.2.2⟩

end AuditKit
